import Mathlib

/-!
Verification of the stream role resolution logic of
`plugins/prebuffer-mixin/src/stream-settings.ts`.

JavaScript numbers are modelled with `Nat`/`Int`; the "not a number" value
arising from `undefined * undefined` when width or height is missing is
modelled by `Option Nat` (`none` = NaN), and the source's immediate patch of
a NaN best score to `Number.MAX_SAFE_INTEGER` is reflected in `pickBestStep`.
All relevant scores in the development are below `2 ^ 53`, where JavaScript
float arithmetic on integers is exact.
-/

namespace StreamSettings

/-- The `video` field of a media stream: width and height may be absent. -/
structure VideoOptions where
  width : Option Nat
  height : Option Nat

deriving instance DecidableEq for VideoOptions

/-- A media stream descriptor (the fields of `ResponseMediaStreamOptions`
used by the selection logic). `source` and `container` may be absent. -/
structure ResponseMediaStreamOptions where
  name : String
  source : Option String
  container : Option String
  video : Option VideoOptions

deriving instance DecidableEq for ResponseMediaStreamOptions

/-- `Number.MAX_SAFE_INTEGER`. -/
def maxSafeInteger : Nat := 2 ^ 53 - 1

/-- `Math.abs(mso.video?.width * mso.video?.height - resolution)`:
`none` models the NaN produced when either dimension is missing. -/
def streamScore (mso : ResponseMediaStreamOptions) (resolution : Nat) : Option Nat :=
  match mso.video with
  | some v =>
    match v.width, v.height with
    | some w, some h => some (((w * h : Nat) : Int) - (resolution : Int)).natAbs
    | _, _ => none
  | none => none

/-- The predicate of `getDefaultPrebufferedStreams`:
`mso.source !== 'cloud' && mso.container !== 'rawvideo'`. -/
def isDefaultPrebufferCandidate (mso : ResponseMediaStreamOptions) : Bool :=
  mso.source != some "cloud" && mso.container != some "rawvideo"

/-- `getDefaultPrebufferedStreams(msos)`; `none` models `undefined`. -/
def getDefaultPrebufferedStreams (msos : Option (List ResponseMediaStreamOptions)) :
    Option (List ResponseMediaStreamOptions) :=
  match msos with
  | none => none
  | some l =>
    match l.find? isDefaultPrebufferCandidate with
    | some firstNonCloudStream => some [firstNonCloudStream]
    | none => some []

/-- `getPrebufferedStreams(storageSettings, msos)`; the first argument models
`storageSettings.values.enabledStreams` when `hasValue.enabledStreams`
(`none` = value not set). -/
def getPrebufferedStreams (enabledStreams : Option (List String))
    (msos : Option (List ResponseMediaStreamOptions)) :
    Option (List ResponseMediaStreamOptions) :=
  match msos with
  | none => none
  | some l =>
    match enabledStreams with
    | none => getDefaultPrebufferedStreams (some l)
    | some names => some (l.filter (fun mso => names.contains mso.name))

/-- One iteration of the loop body of `pickBestStream`. The state holds
`(best, bestScore)`; `bestScore` is always an actual number because the
source patches `NaN` to `Number.MAX_SAFE_INTEGER` immediately after
assignment. A candidate whose score is NaN fails `score < bestScore`
(comparison with NaN is false) and so never replaces an existing best. -/
def pickBestStep (resolution : Nat)
    (state : Option (ResponseMediaStreamOptions × Nat))
    (mso : ResponseMediaStreamOptions) :
    Option (ResponseMediaStreamOptions × Nat) :=
  match state with
  | none =>
    match streamScore mso resolution with
    | some score => some (mso, score)
    | none => some (mso, maxSafeInteger)
  | some (best, bestScore) =>
    match streamScore mso resolution with
    | some score => if score < bestScore then some (mso, score) else some (best, bestScore)
    | none => some (best, bestScore)

/-- The loop of `pickBestStream`, folding `pickBestStep` over the list. -/
def pickBestAux (resolution : Nat)
    (state : Option (ResponseMediaStreamOptions × Nat)) :
    List ResponseMediaStreamOptions → Option (ResponseMediaStreamOptions × Nat)
  | [] => state
  | mso :: rest => pickBestAux resolution (pickBestStep resolution state mso) rest

/-- `pickBestStream(msos, resolution)`. -/
def pickBestStream (msos : Option (List ResponseMediaStreamOptions))
    (resolution : Nat) : Option ResponseMediaStreamOptions :=
  match msos with
  | none => none
  | some l => (pickBestAux resolution none l).map Prod.fst

/-- The five stream roles of `createStreamSettings`. -/
inductive StreamRole
  | defaultStream
  | remoteStream
  | lowResolutionStream
  | recordingStream
  | remoteRecordingStream

deriving instance DecidableEq for StreamRole

/-- The role metadata of `StreamStorageSetting` used by the resolution logic
(title, `prefersPrebuffer`, `preferredResolution`). -/
structure StreamStorageSetting where
  title : String
  prefersPrebuffer : Bool
  preferredResolution : Nat

deriving instance DecidableEq for StreamStorageSetting

/-- The static role catalog `streamTypes` of `createStreamSettings`. -/
def streamTypes : StreamRole → StreamStorageSetting
  | .defaultStream =>
    { title := "Local Stream", prefersPrebuffer := true, preferredResolution := 3840 * 2160 }
  | .remoteStream =>
    { title := "Remote (Medium Resolution) Stream", prefersPrebuffer := false,
      preferredResolution := 1280 * 720 }
  | .lowResolutionStream =>
    { title := "Low Resolution Stream", prefersPrebuffer := false,
      preferredResolution := 480 * 360 }
  | .recordingStream =>
    { title := "Local Recording Stream", prefersPrebuffer := true,
      preferredResolution := 3840 * 2160 }
  | .remoteRecordingStream =>
    { title := "Remote Recording Stream", prefersPrebuffer := true,
      preferredResolution := 1280 * 720 }

/-- The persisted settings read by the resolution logic:
`storageSettings.values.enabledStreams` (when set) and the per-role
persisted value `storageSettings.values[key]` (`none` = unset). -/
structure StorageValues where
  enabledStreams : Option (List String)
  roleValues : StreamRole → Option String

/-- `getDefaultMediaStream(v, msos)` of `createStreamSettings`; the first
argument is the enabled-streams configuration the closure reads from
`storageSettings`. -/
def getDefaultMediaStream (enabledConfig : Option (List String))
    (v : StreamStorageSetting) (msos : Option (List ResponseMediaStreamOptions)) :
    Option ResponseMediaStreamOptions :=
  let enabledStreams := getPrebufferedStreams enabledConfig msos
  let prebufferPreferenceStreams :=
    if v.prefersPrebuffer && (match enabledStreams with
      | some es => decide (0 < es.length)
      | none => false)
    then enabledStreams
    else msos
  pickBestStream prebufferPreferenceStreams v.preferredResolution

/-- The result record `{ title, isDefault, stream }` of `getMediaStream`. -/
structure ResolvedStream where
  title : String
  isDefault : Bool
  stream : Option ResponseMediaStreamOptions

deriving instance DecidableEq for ResolvedStream

/-- `getMediaStream(key, msos)` of `createStreamSettings`. -/
def getMediaStream (st : StorageValues) (key : StreamRole)
    (msos : Option (List ResponseMediaStreamOptions)) : ResolvedStream :=
  let v := streamTypes key
  let value := st.roleValues key
  let isDefault := value == some "Default"
  let stream :=
    match msos with
    | none => none
    | some l => l.find? (fun mso => some mso.name == value)
  if isDefault || stream.isNone then
    { title := v.title, isDefault := true,
      stream := getDefaultMediaStream st.enabledStreams v msos }
  else
    { title := v.title, isDefault := false, stream := stream }

/-! ### Concrete stream descriptors used as test inputs -/

/-- A 1920×1080 local h264 stream. -/
def mso1080 : ResponseMediaStreamOptions :=
  { name := "1080p", source := some "local", container := some "h264",
    video := some { width := some 1920, height := some 1080 } }

/-- A 3840×2160 local h264 stream. -/
def mso4k : ResponseMediaStreamOptions :=
  { name := "4k", source := some "local", container := some "h264",
    video := some { width := some 3840, height := some 2160 } }

/-- A stream with no video dimensions (its score is NaN). -/
def msoNoDims : ResponseMediaStreamOptions :=
  { name := "nodims", source := some "local", container := some "h264", video := none }

/-- A cloud stream. -/
def msoCloud : ResponseMediaStreamOptions :=
  { name := "cloudcam", source := some "cloud", container := some "h264",
    video := some { width := some 1280, height := some 720 } }

/-- A stream whose pixel count is `2 ^ 53`, so its score against target 1 is
exactly `maxSafeInteger`. -/
def msoHuge : ResponseMediaStreamOptions :=
  { name := "huge", source := some "local", container := some "h264",
    video := some { width := some (2 ^ 26), height := some (2 ^ 27) } }

/-- A stream literally named "Default". -/
def msoNamedDefault : ResponseMediaStreamOptions :=
  { name := "Default", source := some "local", container := some "h264",
    video := some { width := some 640, height := some 480 } }

/-- The configuration with every role set to the sentinel "Default" and no
explicit enabled-streams value. -/
def cfgAllDefault : StorageValues :=
  { enabledStreams := none, roleValues := fun _ => some "Default" }

/-- A second 3840×2160 stream, used to exhibit a resolution-distance tie. -/
def mso4kClone : ResponseMediaStreamOptions :=
  { name := "4k-clone", source := some "local", container := some "h264",
    video := some { width := some 3840, height := some 2160 } }

/-- The numeric value of a defined stream score (only used on candidates
whose score is known to be defined). -/
def definedScore (resolution : Nat) (mso : ResponseMediaStreamOptions) : Nat :=
  (streamScore mso resolution).getD 0

/-! ### Helper lemmas -/

/-- Mapping preserves whether an optional value is present. -/
theorem map_isSome {α β : Type} (f : α → β) (x : Option α) :
    (x.map f).isSome = x.isSome := by
  cases x <;> rfl

/-- The name-lookup predicate of `getMediaStream` against a set value is the
plain name comparison. -/
theorem find?_name_some (l : List ResponseMediaStreamOptions) (name : String) :
    l.find? (fun mso => some mso.name == some name) =
      l.find? (fun mso => mso.name == name) := by
  induction l with
  | nil => rfl
  | cons a t ih =>
    have hpred : (some a.name == some name) = (a.name == name) := by simp
    cases hb : (a.name == name) with
    | true =>
      rw [List.find?_cons_of_pos (p := fun mso => some mso.name == some name) t
          (hpred.trans hb),
        List.find?_cons_of_pos (p := fun mso => mso.name == name) t hb]
    | false =>
      rw [List.find?_cons_of_neg (p := fun mso => some mso.name == some name) t
          (by simp [hpred, hb]),
        List.find?_cons_of_neg (p := fun mso => mso.name == name) t (by simp [hb]), ih]

/-- From a populated loop state, `pickBestAux` always produces a result. -/
theorem pickBestAux_isSome_of_some (resolution : Nat) :
    ∀ (l : List ResponseMediaStreamOptions) (p : ResponseMediaStreamOptions × Nat),
      (pickBestAux resolution (some p) l).isSome := by
  intro l
  induction l with
  | nil => intro p; rfl
  | cons m ms ih =>
    intro p
    obtain ⟨b, bs⟩ := p
    show (pickBestAux resolution (pickBestStep resolution (some (b, bs)) m) ms).isSome
    cases hm : streamScore m resolution with
    | none => simpa [pickBestStep, hm] using ih (b, bs)
    | some s =>
      by_cases hlt : s < bs
      · simpa [pickBestStep, hm, hlt] using ih (m, s)
      · simpa [pickBestStep, hm, hlt] using ih (b, bs)

/-- `pickBestStream` on a non-empty list always returns a stream. -/
theorem pickBestStream_isSome (resolution : Nat)
    (l : List ResponseMediaStreamOptions) (h : l ≠ []) :
    (pickBestStream (some l) resolution).isSome := by
  cases l with
  | nil => exact absurd rfl h
  | cons b rest =>
    show ((pickBestAux resolution (pickBestStep resolution none b) rest).map Prod.fst).isSome
    rw [map_isSome]
    cases hb : streamScore b resolution with
    | none =>
      simpa [pickBestStep, hb] using pickBestAux_isSome_of_some resolution rest (b, maxSafeInteger)
    | some s =>
      simpa [pickBestStep, hb] using pickBestAux_isSome_of_some resolution rest (b, s)

/-- Once the loop state holds a best candidate with a defined (non-NaN)
score, the final best candidate also has a defined score equal to the final
best score: a dimension-less candidate never displaces a scored one. -/
theorem score_defined_stays (resolution : Nat) :
    ∀ (l : List ResponseMediaStreamOptions) (c : ResponseMediaStreamOptions) (cs : Nat),
      streamScore c resolution = some cs →
      ∃ d ds, pickBestAux resolution (some (c, cs)) l = some (d, ds) ∧
        streamScore d resolution = some ds := by
  intro l
  induction l with
  | nil => exact fun c cs h => ⟨c, cs, rfl, h⟩
  | cons m ms ih =>
    intro c cs h
    show ∃ d ds, pickBestAux resolution (pickBestStep resolution (some (c, cs)) m) ms = some (d, ds) ∧ _
    cases hm : streamScore m resolution with
    | none => simpa [pickBestStep, hm] using ih c cs h
    | some s =>
      by_cases hlt : s < cs
      · simpa [pickBestStep, hm, hlt] using ih m s hm
      · simpa [pickBestStep, hm, hlt] using ih c cs h

/-- If the current best has a NaN score (patched to `maxSafeInteger`) and some
later candidate has a defined score below `maxSafeInteger`, the final best has
a defined score. -/
theorem nan_best_replaced_aux (resolution : Nat) :
    ∀ (l : List ResponseMediaStreamOptions) (b : ResponseMediaStreamOptions),
      streamScore b resolution = none →
      (∃ m ∈ l, ∃ s, streamScore m resolution = some s ∧ s < maxSafeInteger) →
      ∃ d ds, pickBestAux resolution (some (b, maxSafeInteger)) l = some (d, ds) ∧
        streamScore d resolution = some ds := by
  intro l
  induction l with
  | nil =>
    rintro b _ ⟨m, hm, _⟩
    exact absurd hm (List.not_mem_nil m)
  | cons m ms ih =>
    rintro b hb ⟨m0, hm0mem, s0, hm0, hs0⟩
    show ∃ d ds, pickBestAux resolution (pickBestStep resolution (some (b, maxSafeInteger)) m) ms = some (d, ds) ∧ _
    cases hm : streamScore m resolution with
    | some s =>
      by_cases hlt : s < maxSafeInteger
      · simpa [pickBestStep, hm, hlt] using score_defined_stays resolution ms m s hm
      · have hm0mem' : m0 ∈ ms := by
          rcases List.mem_cons.mp hm0mem with h | h
          · exfalso
            rw [h] at hm0
            rw [hm0] at hm
            injection hm with he
            exact hlt (he ▸ hs0)
          · exact h
        simpa [pickBestStep, hm, hlt] using ih b hb ⟨m0, hm0mem', s0, hm0, hs0⟩
    | none =>
      have hm0mem' : m0 ∈ ms := by
        rcases List.mem_cons.mp hm0mem with h | h
        · rw [h] at hm0
          rw [hm] at hm0
          exact absurd hm0 (by simp)
        · exact h
      simpa [pickBestStep, hm] using ih b hb ⟨m0, hm0mem', s0, hm0, hs0⟩

/-- If every remaining candidate has a NaN score, the loop state is unchanged. -/
theorem all_nan_keeps (resolution : Nat) :
    ∀ (l : List ResponseMediaStreamOptions) (b : ResponseMediaStreamOptions) (bs : Nat),
      (∀ m ∈ l, streamScore m resolution = none) →
      pickBestAux resolution (some (b, bs)) l = some (b, bs) := by
  intro l
  induction l with
  | nil => intro b bs _; rfl
  | cons m ms ih =>
    intro b bs h
    show pickBestAux resolution (pickBestStep resolution (some (b, bs)) m) ms = some (b, bs)
    have hm : streamScore m resolution = none := h m (List.mem_cons_self m ms)
    rw [show pickBestStep resolution (some (b, bs)) m = some (b, bs) by simp [pickBestStep, hm]]
    exact ih b bs (fun x hx => h x (List.mem_cons_of_mem m hx))

/-- The left fold of `Nat.min` is bounded by its initial value. -/
theorem foldl_min_le (a : Nat) (xs : List Nat) : xs.foldl Nat.min a ≤ a := by
  induction xs generalizing a with
  | nil => exact Nat.le_refl a
  | cons x t ih => exact Nat.le_trans (ih (Nat.min a x)) (Nat.min_le_left a x)

/-- `find?` locates the first element satisfying the predicate. -/
theorem find?_append_first {α : Type} (p : α → Bool) :
    ∀ (l1 : List α) (s : α) (l2 : List α), p s = true → (∀ t ∈ l1, p t = false) →
      (l1 ++ s :: l2).find? p = some s := by
  intro l1
  induction l1 with
  | nil => intro s l2 hs _; exact List.find?_cons_of_pos _ hs
  | cons a t ih =>
    intro s l2 hs hall
    rw [List.cons_append,
      List.find?_cons_of_neg _ (by simp [hall a (List.mem_cons_self a t)])]
    exact ih s l2 hs (fun x hx => hall x (List.mem_cons_of_mem a hx))

/-- Unfolding of the default-prebuffer predicate into its two conditions. -/
theorem isDefaultPrebufferCandidate_iff (s : ResponseMediaStreamOptions) :
    isDefaultPrebufferCandidate s = true ↔
      (s.source ≠ some "cloud" ∧ s.container ≠ some "rawvideo") := by
  simp [isDefaultPrebufferCandidate]

/-! ### Claim theorems -/

/-- Claim C1 (counterexample): for the stream list `[1080p, 4k]`, role
`defaultStream` with persisted value "Default" and no enabled-streams
configuration, `getMediaStream` does NOT return the stream named "4k": it
returns the stream named "1080p" (with `isDefault = true`), because the
candidate pool is restricted to the default prebuffered subset `[1080p]`. -/
theorem c1_counterexample :
    getMediaStream cfgAllDefault StreamRole.defaultStream (some [mso1080, mso4k]) =
      { title := "Local Stream", isDefault := true, stream := some mso1080 } ∧
    mso1080.name = "1080p" ∧ mso4k.name = "4k" ∧
    (getMediaStream cfgAllDefault StreamRole.defaultStream
        (some [mso1080, mso4k])).stream ≠ some mso4k := by
  refine ⟨by decide, rfl, rfl, by decide⟩

/-- Claim C1 (amended): for the stream list `[1080p, 4k]`, role
`defaultStream`, persisted value "Default" and no enabled-streams
configuration, `getMediaStream` returns `isDefault = true` and the stream
named "1080p": the role prefers prebuffer and the default prebuffered subset
is the single-element list `[1080p]` (the first non-cloud stream), so the
best-match scorer only sees "1080p". -/
theorem c1_amended :
    getPrebufferedStreams none (some [mso1080, mso4k]) = some [mso1080] ∧
    getMediaStream cfgAllDefault StreamRole.defaultStream (some [mso1080, mso4k]) =
      { title := "Local Stream", isDefault := true, stream := some mso1080 } := by
  refine ⟨by decide, by decide⟩

/-- Claim C2 (counterexample): a dimension-less candidate that has become the
best CAN be replaced by a later candidate with valid dimensions: for
`[nodims, 4k]` at target 3840*2160, `pickBestStream` returns the `4k` stream,
even though the dimension-less stream became best first (its NaN best score is
patched to `maxSafeInteger`, so later comparisons succeed). -/
theorem c2_counterexample :
    pickBestStream (some [msoNoDims, mso4k]) (3840 * 2160) = some mso4k ∧
    streamScore msoNoDims (3840 * 2160) = none ∧
    streamScore mso4k (3840 * 2160) = some 0 ∧
    msoNoDims ≠ mso4k := by
  refine ⟨by decide, rfl, by decide, by decide⟩

/-- Claim C2 (amended): when the best score would be NaN, the code
immediately patches it to `Number.MAX_SAFE_INTEGER`, so the comparison
`score < bestScore` is against `maxSafeInteger`, not NaN; hence a later
candidate with a defined score strictly below `maxSafeInteger` replaces the
dimension-less best. -/
theorem c2_amended (resolution : Nat) (b m : ResponseMediaStreamOptions)
    (rest : List ResponseMediaStreamOptions) (s : Nat)
    (hb : streamScore b resolution = none)
    (hm : streamScore m resolution = some s)
    (hs : s < maxSafeInteger) :
    pickBestAux resolution none (b :: m :: rest) =
      pickBestAux resolution (some (m, s)) rest ∧
    pickBestStream (some [b, m]) resolution = some m := by
  constructor
  · show pickBestAux resolution (pickBestStep resolution (pickBestStep resolution none b) m) rest = _
    rw [show pickBestStep resolution none b = some (b, maxSafeInteger) by
        simp [pickBestStep, hb],
      show pickBestStep resolution (some (b, maxSafeInteger)) m = some (m, s) by
        simp [pickBestStep, hm, hs]]
  · show (pickBestAux resolution (pickBestStep resolution (pickBestStep resolution none b) m) []).map Prod.fst = _
    rw [show pickBestStep resolution none b = some (b, maxSafeInteger) by
        simp [pickBestStep, hb],
      show pickBestStep resolution (some (b, maxSafeInteger)) m = some (m, s) by
        simp [pickBestStep, hm, hs]]
    rfl

/-- Witness for `c2_amended` at the concrete input `[nodims, 4k]`. -/
theorem c2_amended_witness :
    streamScore msoNoDims (3840 * 2160) = none ∧
    streamScore mso4k (3840 * 2160) = some 0 ∧
    0 < maxSafeInteger ∧
    pickBestStream (some [msoNoDims, mso4k]) (3840 * 2160) = some mso4k :=
  ⟨rfl, by decide, by decide,
    (c2_amended (3840 * 2160) msoNoDims mso4k [] 0 rfl (by decide) (by decide)).2⟩

/-- Claim C4: if the persisted value for a role is the name of a stream
present in the list (and not the sentinel "Default"), `getMediaStream`
returns `isDefault = false` and exactly that stream (the first list entry
carrying that name). -/
theorem c4_explicit_choice (st : StorageValues) (key : StreamRole)
    (l : List ResponseMediaStreamOptions) (nm : String)
    (s : ResponseMediaStreamOptions)
    (hv : st.roleValues key = some nm) (hname : nm ≠ "Default")
    (hfind : l.find? (fun mso => mso.name == nm) = some s) :
    getMediaStream st key (some l) =
      { title := (streamTypes key).title, isDefault := false, stream := some s } := by
  have hfind2 : l.find? (fun mso => some mso.name == st.roleValues key) = some s := by
    rw [hv, find?_name_some, hfind]
  have hbeq : (st.roleValues key == some "Default") = false := by
    rw [hv]; simp [hname]
  simp [getMediaStream, hfind2, hbeq]

/-- Witness for `c4_explicit_choice`: configured value "1080p" over
`[1080p, 4k]` resolves to the 1080p stream with `isDefault = false`. -/
theorem c4_explicit_choice_witness :
    ({ enabledStreams := none, roleValues := fun _ => some "1080p" } :
        StorageValues).roleValues StreamRole.defaultStream = some "1080p" ∧
    "1080p" ≠ "Default" ∧
    [mso1080, mso4k].find? (fun mso => mso.name == "1080p") = some mso1080 ∧
    getMediaStream { enabledStreams := none, roleValues := fun _ => some "1080p" }
        StreamRole.defaultStream (some [mso1080, mso4k]) =
      { title := "Local Stream", isDefault := false, stream := some mso1080 } :=
  ⟨rfl, by decide, by decide,
    c4_explicit_choice _ StreamRole.defaultStream [mso1080, mso4k] "1080p" mso1080
      rfl (by decide) (by decide)⟩

/-- Claim C5: if the persisted value for a role names a stream absent from
the current list, `getMediaStream` recovers locally: it returns
`isDefault = true` and the stream computed by `getDefaultMediaStream`; no
error is raised. -/
theorem c5_stale_fallback (st : StorageValues) (key : StreamRole)
    (l : List ResponseMediaStreamOptions) (nm : String)
    (hv : st.roleValues key = some nm)
    (habsent : ∀ s ∈ l, s.name ≠ nm) :
    getMediaStream st key (some l) =
      { title := (streamTypes key).title, isDefault := true,
        stream := getDefaultMediaStream st.enabledStreams (streamTypes key) (some l) } := by
  have hfind : l.find? (fun mso => some mso.name == st.roleValues key) = none := by
    rw [hv, find?_name_some]
    rw [List.find?_eq_none]
    intro x hx
    simp [habsent x hx]
  simp [getMediaStream, hfind]

/-- Witness for `c5_stale_fallback`: stale value "gone" over `[1080p]` falls
back to the computed default. -/
theorem c5_stale_fallback_witness :
    ({ enabledStreams := none, roleValues := fun _ => some "gone" } :
        StorageValues).roleValues StreamRole.defaultStream = some "gone" ∧
    (∀ s ∈ [mso1080], s.name ≠ "gone") ∧
    getMediaStream { enabledStreams := none, roleValues := fun _ => some "gone" }
        StreamRole.defaultStream (some [mso1080]) =
      { title := "Local Stream", isDefault := true,
        stream := getDefaultMediaStream none (streamTypes StreamRole.defaultStream)
          (some [mso1080]) } :=
  ⟨rfl, by decide,
    c5_stale_fallback _ StreamRole.defaultStream [mso1080] "gone" rfl (by decide)⟩

/-- Claim C10: a stream literally named "Default" is never returned through
the explicit name-lookup path: when the persisted value is the sentinel
"Default", `getMediaStream` sets `isDefault = true` and recomputes the stream
via `getDefaultMediaStream`, even though the name lookup would have found the
descriptor named "Default". -/
theorem c10_sentinel_shadowing (st : StorageValues) (key : StreamRole)
    (l : List ResponseMediaStreamOptions)
    (hv : st.roleValues key = some "Default")
    (_hnamed : ∃ s ∈ l, s.name = "Default") :
    getMediaStream st key (some l) =
      { title := (streamTypes key).title, isDefault := true,
        stream := getDefaultMediaStream st.enabledStreams (streamTypes key) (some l) } := by
  have hbeq : (st.roleValues key == some "Default") = true := by rw [hv]; simp
  simp [getMediaStream, hbeq]

/-- Witness for `c10_sentinel_shadowing`: a list whose head is literally
named "Default", with the role value set to the sentinel. -/
theorem c10_sentinel_shadowing_witness :
    cfgAllDefault.roleValues StreamRole.defaultStream = some "Default" ∧
    (∃ s ∈ [msoNamedDefault, mso1080], s.name = "Default") ∧
    getMediaStream cfgAllDefault StreamRole.defaultStream
        (some [msoNamedDefault, mso1080]) =
      { title := "Local Stream", isDefault := true,
        stream := getDefaultMediaStream none (streamTypes StreamRole.defaultStream)
          (some [msoNamedDefault, mso1080]) } :=
  ⟨rfl, ⟨msoNamedDefault, by decide, rfl⟩,
    c10_sentinel_shadowing cfgAllDefault StreamRole.defaultStream
      [msoNamedDefault, mso1080] rfl ⟨msoNamedDefault, by decide, rfl⟩⟩

/-- Claim C3 (counterexample): a stream with known resolution is NOT always
preferred over one with unknown resolution: over `[nodims, huge]` with target
1, the huge stream's score is exactly `maxSafeInteger` (= 2^53 - 1, the patch
value of the dimension-less best), so the strict comparison fails and the
dimension-less stream is returned although a known-resolution candidate
exists. -/
theorem c3_counterexample :
    pickBestStream (some [msoNoDims, msoHuge]) 1 = some msoNoDims ∧
    streamScore msoHuge 1 = some maxSafeInteger ∧
    streamScore msoNoDims 1 = none ∧
    msoNoDims ≠ msoHuge := by
  refine ⟨by decide, by decide, rfl, by decide⟩

/-- Claim C3 (amended): a dimension-less candidate is scored
`maxSafeInteger` (not a true worst-possible value) when it becomes best, and
never replaces an existing best; hence a candidate with known resolution is
preferred over one with unknown resolution provided its score is strictly
below `maxSafeInteger`; and when every candidate has unknown resolution the
first candidate is still returned. -/
theorem c3_amended (resolution : Nat) (l : List ResponseMediaStreamOptions) :
    ((∃ m ∈ l, ∃ s, streamScore m resolution = some s ∧ s < maxSafeInteger) →
      ∃ c, pickBestStream (some l) resolution = some c ∧
        (streamScore c resolution).isSome) ∧
    (∀ b rest, l = b :: rest → (∀ m ∈ l, streamScore m resolution = none) →
      pickBestStream (some l) resolution = some b) := by
  constructor
  · rintro ⟨m0, hm0mem, s0, hm0, hs0⟩
    cases l with
    | nil => exact absurd hm0mem (List.not_mem_nil m0)
    | cons x xs =>
      show ∃ c, (pickBestAux resolution (pickBestStep resolution none x) xs).map Prod.fst = some c ∧ _
      cases hx : streamScore x resolution with
      | some sx =>
        obtain ⟨d, ds, hd, hds⟩ := score_defined_stays resolution xs x sx hx
        rw [show pickBestStep resolution none x = some (x, sx) by simp [pickBestStep, hx], hd]
        exact ⟨d, rfl, by simp [hds]⟩
      | none =>
        have hm0mem' : m0 ∈ xs := by
          rcases List.mem_cons.mp hm0mem with h | h
          · rw [h] at hm0
            rw [hx] at hm0
            exact absurd hm0 (by simp)
          · exact h
        obtain ⟨d, ds, hd, hds⟩ :=
          nan_best_replaced_aux resolution xs x hx ⟨m0, hm0mem', s0, hm0, hs0⟩
        rw [show pickBestStep resolution none x = some (x, maxSafeInteger) by
            simp [pickBestStep, hx], hd]
        exact ⟨d, rfl, by simp [hds]⟩
  · intro b rest hl hall
    subst hl
    show (pickBestAux resolution (pickBestStep resolution none b) rest).map Prod.fst = some b
    have hb : streamScore b resolution = none := hall b (List.mem_cons_self b rest)
    rw [show pickBestStep resolution none b = some (b, maxSafeInteger) by
        simp [pickBestStep, hb],
      all_nan_keeps resolution rest b maxSafeInteger
        (fun m hm => hall m (List.mem_cons_of_mem b hm))]
    rfl

/-- Witness for `c3_amended`: both parts applied at concrete inputs — a
known-resolution 4k stream beats a dimension-less one, and an all-unknown
list returns its first element. -/
theorem c3_amended_witness :
    (∃ m ∈ [msoNoDims, mso4k], ∃ s,
      streamScore m (3840 * 2160) = some s ∧ s < maxSafeInteger) ∧
    (∃ c, pickBestStream (some [msoNoDims, mso4k]) (3840 * 2160) = some c ∧
      (streamScore c (3840 * 2160)).isSome) ∧
    pickBestStream (some [msoNoDims]) (3840 * 2160) = some msoNoDims := by
  have h : ∃ m ∈ [msoNoDims, mso4k], ∃ s,
      streamScore m (3840 * 2160) = some s ∧ s < maxSafeInteger :=
    ⟨mso4k, by decide, 0, by decide, by decide⟩
  exact ⟨h, (c3_amended (3840 * 2160) [msoNoDims, mso4k]).1 h,
    (c3_amended (3840 * 2160) [msoNoDims]).2 msoNoDims [] rfl (by decide)⟩

/-- Claim C6: `getDefaultMediaStream` restricts the candidate pool to the
enabled (prebuffered) streams exactly when the role prefers prebuffer and the
enabled list is non-empty; otherwise it scores the full list, and on a
non-empty stream list it never returns `none`. -/
theorem c6_candidate_pool (cfg : Option (List String)) (v : StreamStorageSetting)
    (l es : List ResponseMediaStreamOptions)
    (h : getPrebufferedStreams cfg (some l) = some es) :
    getDefaultMediaStream cfg v (some l) =
      pickBestStream
        (some (if v.prefersPrebuffer && decide (0 < es.length) then es else l))
        v.preferredResolution ∧
    (l ≠ [] → (getDefaultMediaStream cfg v (some l)).isSome) := by
  have hpool : getDefaultMediaStream cfg v (some l) =
      pickBestStream
        (some (if v.prefersPrebuffer && decide (0 < es.length) then es else l))
        v.preferredResolution := by
    show pickBestStream
        (if v.prefersPrebuffer && (match getPrebufferedStreams cfg (some l) with
          | some es' => decide (0 < es'.length)
          | none => false)
         then getPrebufferedStreams cfg (some l)
         else some l) v.preferredResolution = _
    rw [h]
    by_cases hc : v.prefersPrebuffer && decide (0 < es.length)
    · simp [hc]
    · simp [hc]
  refine ⟨hpool, fun hl => ?_⟩
  rw [hpool]
  by_cases hc : v.prefersPrebuffer && decide (0 < es.length)
  · have hes : es ≠ [] := by
      have := (Bool.and_eq_true _ _).mp hc
      have hlen : 0 < es.length := of_decide_eq_true this.2
      exact List.ne_nil_of_length_pos hlen
    rw [if_pos hc]
    exact pickBestStream_isSome v.preferredResolution es hes
  · rw [if_neg hc]
    exact pickBestStream_isSome v.preferredResolution l hl

/-- Witness for `c6_candidate_pool`: for `defaultStream` over `[1080p, 4k]`
with no explicit enabled-streams value, the pool is the enabled subset
`[1080p]` and the result is present. -/
theorem c6_candidate_pool_witness :
    getPrebufferedStreams none (some [mso1080, mso4k]) = some [mso1080] ∧
    getDefaultMediaStream none (streamTypes StreamRole.defaultStream)
        (some [mso1080, mso4k]) =
      pickBestStream
        (some (if (streamTypes StreamRole.defaultStream).prefersPrebuffer &&
            decide (0 < ([mso1080] : List ResponseMediaStreamOptions).length)
          then [mso1080] else [mso1080, mso4k]))
        (streamTypes StreamRole.defaultStream).preferredResolution ∧
    ([mso1080, mso4k] : List ResponseMediaStreamOptions) ≠ [] ∧
    (getDefaultMediaStream none (streamTypes StreamRole.defaultStream)
        (some [mso1080, mso4k])).isSome :=
  ⟨by decide,
    (c6_candidate_pool none (streamTypes StreamRole.defaultStream)
      [mso1080, mso4k] [mso1080] (by decide)).1,
    by decide,
    (c6_candidate_pool none (streamTypes StreamRole.defaultStream)
      [mso1080, mso4k] [mso1080] (by decide)).2 (by decide)⟩

/-- Claim C8: `getDefaultPrebufferedStreams` on a defined list always returns
a defined list whose members come from the input and are neither cloud-source
nor rawvideo-container; when no stream qualifies it returns the empty list,
and when one does it returns the single-element list holding the first
qualifying stream in input order. -/
theorem c8_default_prebuffer (l : List ResponseMediaStreamOptions) :
    (getDefaultPrebufferedStreams (some l)).isSome ∧
    ∀ res, getDefaultPrebufferedStreams (some l) = some res →
      ((∀ s ∈ res, s ∈ l ∧ s.source ≠ some "cloud" ∧ s.container ≠ some "rawvideo") ∧
       ((∀ s ∈ l, ¬(s.source ≠ some "cloud" ∧ s.container ≠ some "rawvideo")) →
         res = []) ∧
       (∀ l1 s l2, l = l1 ++ s :: l2 →
         s.source ≠ some "cloud" → s.container ≠ some "rawvideo" →
         (∀ t ∈ l1, ¬(t.source ≠ some "cloud" ∧ t.container ≠ some "rawvideo")) →
         res = [s])) := by
  cases hf : l.find? isDefaultPrebufferCandidate with
  | some s0 =>
    have hres : getDefaultPrebufferedStreams (some l) = some [s0] := by
      show (match l.find? isDefaultPrebufferCandidate with
        | some firstNonCloudStream => some [firstNonCloudStream]
        | none => some []) = _
      rw [hf]
    refine ⟨by rw [hres]; rfl, fun res hres' => ?_⟩
    have hres0 : res = [s0] := by
      rw [hres] at hres'
      exact (Option.some_inj.mp hres').symm
    subst hres0
    refine ⟨?_, ?_, ?_⟩
    · intro s hs
      rw [List.mem_singleton] at hs
      subst hs
      exact ⟨List.mem_of_find?_eq_some hf,
        (isDefaultPrebufferCandidate_iff s).mp (List.find?_some hf)⟩
    · intro hall
      exact absurd ((isDefaultPrebufferCandidate_iff s0).mp (List.find?_some hf))
        (hall s0 (List.mem_of_find?_eq_some hf))
    · intro l1 s l2 hl hsrc hcont hprefix
      have hfirst : l.find? isDefaultPrebufferCandidate = some s := by
        rw [hl]
        exact find?_append_first isDefaultPrebufferCandidate l1 s l2
          ((isDefaultPrebufferCandidate_iff s).mpr ⟨hsrc, hcont⟩)
          (fun t ht => by
            have := hprefix t ht
            cases hb : isDefaultPrebufferCandidate t with
            | false => rfl
            | true => exact absurd ((isDefaultPrebufferCandidate_iff t).mp hb) this)
      rw [hf] at hfirst
      injection hfirst with he
      rw [he]
  | none =>
    have hres : getDefaultPrebufferedStreams (some l) = some [] := by
      show (match l.find? isDefaultPrebufferCandidate with
        | some firstNonCloudStream => some [firstNonCloudStream]
        | none => some []) = _
      rw [hf]
    refine ⟨by rw [hres]; rfl, fun res hres' => ?_⟩
    have hres0 : res = [] := by
      rw [hres] at hres'
      exact (Option.some_inj.mp hres').symm
    subst hres0
    refine ⟨fun s hs => absurd hs (List.not_mem_nil s), fun _ => rfl, ?_⟩
    intro l1 s l2 hl hsrc hcont hprefix
    exfalso
    have hmem : s ∈ l := by rw [hl]; exact List.mem_append_right l1 (List.mem_cons_self s l2)
    have := List.find?_eq_none.mp hf s hmem
    exact this ((isDefaultPrebufferCandidate_iff s).mpr ⟨hsrc, hcont⟩)

/-- Witness for `c8_default_prebuffer`: over `[cloudcam, 1080p]` the default
prebuffered set is exactly `[1080p]`, the first non-cloud stream. -/
theorem c8_default_prebuffer_witness :
    getDefaultPrebufferedStreams (some [msoCloud, mso1080]) = some [mso1080] ∧
    (getDefaultPrebufferedStreams (some [msoCloud, mso1080])).isSome ∧
    (∀ s ∈ [mso1080], s ∈ [msoCloud, mso1080] ∧
      s.source ≠ some "cloud" ∧ s.container ≠ some "rawvideo") :=
  ⟨by decide, (c8_default_prebuffer [msoCloud, mso1080]).1,
    ((c8_default_prebuffer [msoCloud, mso1080]).2 [mso1080] (by decide)).1⟩

/-- Claim C9: `getPrebufferedStreams` returns `none` for an undefined stream
list; with an explicit enabled-streams value it returns exactly the input
streams whose name is in the persisted set, as an order-preserving sublist of
the input (persisted names matching no stream are silently dropped); with no
explicit value it delegates to `getDefaultPrebufferedStreams`. -/
theorem c9_prebuffered_streams (cfg : Option (List String)) :
    getPrebufferedStreams cfg none = none ∧
    (∀ names l, cfg = some names →
      getPrebufferedStreams cfg (some l) =
        some (l.filter (fun mso => names.contains mso.name)) ∧
      (l.filter (fun mso => names.contains mso.name)).Sublist l ∧
      (∀ s ∈ l, (s ∈ l.filter (fun mso => names.contains mso.name) ↔
        names.contains s.name = true))) ∧
    (cfg = none → ∀ l,
      getPrebufferedStreams cfg (some l) = getDefaultPrebufferedStreams (some l)) := by
  refine ⟨rfl, ?_, ?_⟩
  · intro names l hcfg
    subst hcfg
    refine ⟨rfl, List.filter_sublist l, fun s hs => ?_⟩
    rw [List.mem_filter]
    exact ⟨fun h => h.2, fun h => ⟨hs, h⟩⟩
  · intro hcfg l
    subst hcfg
    rfl

/-- Witness for `c9_prebuffered_streams`: persisted names `["4k", "ghost"]`
over `[1080p, 4k]` keep exactly the 4k stream; the stale name "ghost" is
dropped without error, and an undefined stream list yields `none`. -/
theorem c9_prebuffered_streams_witness :
    getPrebufferedStreams (some ["4k", "ghost"]) none = none ∧
    getPrebufferedStreams (some ["4k", "ghost"]) (some [mso1080, mso4k]) =
      some [mso4k] ∧
    getPrebufferedStreams none (some [msoCloud]) =
      getDefaultPrebufferedStreams (some [msoCloud]) :=
  ⟨(c9_prebuffered_streams (some ["4k", "ghost"])).1,
    (((c9_prebuffered_streams (some ["4k", "ghost"])).2.1 ["4k", "ghost"]
      [mso1080, mso4k] rfl).1).trans (by decide),
    (c9_prebuffered_streams none).2.2 rfl [msoCloud]⟩

/-- When every candidate has a defined score, the loop starting from a scored
best returns the first element (best included) attaining the minimal score:
the comparison is strictly-less, so ties keep the earlier candidate. -/
theorem pickBestAux_first_min (resolution : Nat) :
    ∀ (l : List ResponseMediaStreamOptions) (b : ResponseMediaStreamOptions) (sb : Nat),
      streamScore b resolution = some sb →
      (∀ m ∈ l, (streamScore m resolution).isSome) →
      (pickBestAux resolution (some (b, sb)) l).map Prod.fst =
        (b :: l).find? (fun m => definedScore resolution m ==
          (l.map (definedScore resolution)).foldl Nat.min sb) := by
  intro l
  induction l with
  | nil =>
    intro b sb hb _
    have hdsb : definedScore resolution b = sb := by simp [definedScore, hb]
    show some b = [b].find? _
    rw [List.find?_cons]
    simp [hdsb]
  | cons m ms ih =>
    intro b sb hb hdef
    obtain ⟨s, hm⟩ := Option.isSome_iff_exists.mp (hdef m (List.mem_cons_self m ms))
    have hdsm : definedScore resolution m = s := by simp [definedScore, hm]
    have hdsb : definedScore resolution b = sb := by simp [definedScore, hb]
    have hdef' : ∀ x ∈ ms, (streamScore x resolution).isSome :=
      fun x hx => hdef x (List.mem_cons_of_mem m hx)
    show (pickBestAux resolution (pickBestStep resolution (some (b, sb)) m) ms).map Prod.fst = _
    by_cases hlt : s < sb
    · rw [show pickBestStep resolution (some (b, sb)) m = some (m, s) by
          simp [pickBestStep, hm, hlt],
        ih m s hm hdef']
      have hmin : ((m :: ms).map (definedScore resolution)).foldl Nat.min sb =
          (ms.map (definedScore resolution)).foldl Nat.min s := by
        rw [List.map_cons, List.foldl_cons, hdsm]
        congr 1
        exact Nat.min_eq_right (Nat.le_of_lt hlt)
      rw [hmin]
      have hM : (ms.map (definedScore resolution)).foldl Nat.min s ≤ s :=
        foldl_min_le s (ms.map (definedScore resolution))
      have hpb : (definedScore resolution b ==
          (ms.map (definedScore resolution)).foldl Nat.min s) = false := by
        rw [hdsb]
        exact beq_eq_false_iff_ne.mpr (by omega)
      conv_rhs => rw [List.find?_cons]
      rw [hpb]
    · have hle : sb ≤ s := Nat.le_of_not_lt hlt
      rw [show pickBestStep resolution (some (b, sb)) m = some (b, sb) by
          simp [pickBestStep, hm, hlt],
        ih b sb hb hdef']
      have hmin : ((m :: ms).map (definedScore resolution)).foldl Nat.min sb =
          (ms.map (definedScore resolution)).foldl Nat.min sb := by
        rw [List.map_cons, List.foldl_cons, hdsm]
        congr 1
        exact Nat.min_eq_left hle
      rw [hmin]
      cases hpb : (definedScore resolution b ==
          (ms.map (definedScore resolution)).foldl Nat.min sb) with
      | true =>
        rw [List.find?_cons, hpb]
        conv_rhs => rw [List.find?_cons]
        rw [hpb]
      | false =>
        have hM : (ms.map (definedScore resolution)).foldl Nat.min sb ≤ sb :=
          foldl_min_le sb (ms.map (definedScore resolution))
        have hbne : sb ≠ (ms.map (definedScore resolution)).foldl Nat.min sb := by
          rw [hdsb] at hpb
          exact beq_eq_false_iff_ne.mp hpb
        have hpm : (definedScore resolution m ==
            (ms.map (definedScore resolution)).foldl Nat.min sb) = false := by
          rw [hdsm]
          exact beq_eq_false_iff_ne.mpr (by omega)
        rw [List.find?_cons, hpb]
        conv_rhs => rw [List.find?_cons]
        rw [hpb]
        conv_rhs => rw [List.find?_cons]
        rw [hpm]

/-- Claim C7: `pickBestStream` is deterministic with first-wins tie-breaking:
on a list whose candidates all have defined scores, it returns the first
candidate in input order whose score equals the minimum score, so of two
candidates at identical resolution distance to the target the earlier one
wins (the comparison is strictly-less, not less-or-equal). -/
theorem c7_first_wins (resolution : Nat) (b : ResponseMediaStreamOptions)
    (rest : List ResponseMediaStreamOptions)
    (hdef : ∀ m ∈ b :: rest, (streamScore m resolution).isSome) :
    pickBestStream (some (b :: rest)) resolution =
      (b :: rest).find? (fun m => definedScore resolution m ==
        (rest.map (definedScore resolution)).foldl Nat.min
          (definedScore resolution b)) := by
  obtain ⟨sb, hb⟩ := Option.isSome_iff_exists.mp (hdef b (List.mem_cons_self b rest))
  have hdsb : definedScore resolution b = sb := by simp [definedScore, hb]
  show (pickBestAux resolution (pickBestStep resolution none b) rest).map Prod.fst = _
  rw [show pickBestStep resolution none b = some (b, sb) by simp [pickBestStep, hb],
    pickBestAux_first_min resolution rest b sb hb
      (fun m hm => hdef m (List.mem_cons_of_mem b hm)),
    hdsb]

/-- Witness for `c7_first_wins`: two distinct streams with identical 3840×2160
resolution tie at target 1280*720; the first one in input order is returned. -/
theorem c7_first_wins_witness :
    (∀ m ∈ [mso4k, mso4kClone], (streamScore m (1280 * 720)).isSome) ∧
    streamScore mso4k (1280 * 720) = streamScore mso4kClone (1280 * 720) ∧
    mso4k ≠ mso4kClone ∧
    pickBestStream (some [mso4k, mso4kClone]) (1280 * 720) = some mso4k :=
  ⟨by decide, by decide, by decide,
    (c7_first_wins (1280 * 720) mso4k [mso4kClone] (by decide)).trans (by decide)⟩

end StreamSettings
